import Mathlib

/-!
Verification of the Sonarr API client facade (`src/arrapi/sonarr.py`).

The module is shallowly embedded: remote state (the Sonarr catalog, the
external lookup index, the fetched profile/root-folder/tag reference lists)
is an explicit `Env`, remote responses are abstract function fields of
`Env`, and every mutating HTTP request (`series/import`, `series/editor`,
`seasonPass`, `DELETE series/editor`) is recorded in an explicit call
trace.  Pieces of the repository that are not under `src/` (the base-class
helpers and the `Series` object model) are modelled from the spec and
marked as such in their doc comments.
-/

/-- Error taxonomy of the client (spec section 7): `Invalid` carries the
offending candidate and the legal option set, `ValueError` the ambiguous-call
message; `NotFound` and `Exists` are per-item resolution failures. -/
inductive ArrError where
  | invalid (candidate : String) (options : List String)
  | valueError (msg : String)
  | notFound
  | alreadyExists
deriving Repr, DecidableEq

/-- True exactly on the errors produced by option validation
(`Invalid` / `ValueError`); `NotFound` and `Exists` are per-item outcomes. -/
def ArrError.validationOnly : ArrError → Bool
  | .invalid _ _ => true
  | .valueError _ => true
  | .notFound => false
  | .alreadyExists => false

/-- A remote series entry: Sonarr-internal `id` plus external `tvdbId`. -/
structure SeriesEntry where
  id : Nat
  tvdbId : Nat
deriving Repr, DecidableEq

/-- An element of a `tvdb_ids` argument: either a raw TVDb id or an
already-fetched `Series` object. -/
inductive SeriesRef where
  | rawId (tvdbId : Nat)
  | obj (s : SeriesEntry)
deriving Repr, DecidableEq

/-- The TVDb id carried by a list element (the loop reassignment
`tvdb_id = tvdb_id.tvdbId` in `_validate_tvdb_ids`). -/
def refTvdb : SeriesRef → Nat
  | .rawId t => t
  | .obj s => s.tvdbId

/-- A language profile fetched from `GET /languageProfile`. -/
structure LanguageProfile where
  id : Nat
  name : String
deriving Repr, DecidableEq

/-- A polymorphic reference to a named/identified entity, as the Python
methods accept `Union[str, int, Object]` arguments. -/
inductive ProfileRef where
  | byName (name : String)
  | byId (id : Nat)
  | byObj (id : Nat) (name : String)
deriving Repr, DecidableEq

/-- Rendering of a candidate for error messages. -/
def ProfileRef.render : ProfileRef → String
  | .byName n => n
  | .byId i => toString i
  | .byObj _ n => n

/-- Rendering of a language profile for the `Invalid` option list. -/
def LanguageProfile.render (p : LanguageProfile) : String := p.name

/-- The predicate of the matching loop in `_validate_language_profile`:
`(isinstance obj and id equal) or (isinstance int and id equal) or
(name == candidate)`; Python cross-type `==` comparisons are `False`. -/
def lpMatches (profile : LanguageProfile) : ProfileRef → Bool
  | .byName n => profile.name == n
  | .byId i => profile.id == i
  | .byObj i _ => profile.id == i

/-- Matching against a generic `(id, name)` reference item. -/
def entityMatches (item : Nat × String) : ProfileRef → Bool
  | .byName n => item.2 == n
  | .byId i => item.1 == i
  | .byObj i _ => item.1 == i

/-- EditOptions: the option map built by `_validate_edit_options`; `none`
fields are keys absent from the Python dict. -/
structure EditOptions where
  moveFiles : Bool
  rootFolderPath : Option Nat := none
  path : Option String := none
  qualityProfile : Option Nat := none
  languageProfileId : Option Nat := none
  monitor : Option String := none
  monitored : Option Bool := none
  seasonFolder : Option Bool := none
  seriesType : Option String := none
  tags : Option (List Nat) := none
  applyTags : Option String := none
deriving Repr, DecidableEq

/-- The keys present in the edit option map, in dict insertion order; the
quality-profile key name depends on the `v3` flag. -/
def editOptionsKeys (v3 : Bool) (o : EditOptions) : List String :=
  ["moveFiles"]
  ++ (if o.rootFolderPath.isSome then ["rootFolderPath"] else [])
  ++ (if o.path.isSome then ["path"] else [])
  ++ (if o.qualityProfile.isSome then [if v3 then "qualityProfileId" else "profileId"] else [])
  ++ (if o.languageProfileId.isSome then ["languageProfileId"] else [])
  ++ (if o.monitor.isSome then ["monitor"] else [])
  ++ (if o.monitored.isSome then ["monitored"] else [])
  ++ (if o.seasonFolder.isSome then ["seasonFolder"] else [])
  ++ (if o.seriesType.isSome then ["seriesType"] else [])
  ++ (if o.tags.isSome then ["tags"] else [])
  ++ (if o.applyTags.isSome then ["applyTags"] else [])

/-- AddOptions: the option map built by `_validate_add_options`. -/
structure AddOptions where
  root_folder : Nat
  quality_profile : Nat
  language_profile : Nat
  monitor : String
  monitored : Bool
  season_folder : Bool
  search : Bool
  unmet_search : Bool
  series_type : String
  tags : Option (List Nat) := none
deriving Repr, DecidableEq

/-- The JSON payload queued for `POST /series/import` for one show:
its TVDb id together with the (shared) validated add options. -/
abbrev AddPayload := Nat × AddOptions

/-- One mutating HTTP request of the facade; GET traffic carries no
mutation and is not traced. -/
inductive Call where
  | importReq (payload : List AddPayload)
  | editorReq (opts : EditOptions) (seriesIds : List Nat)
  | seasonPassReq (monitor : String) (series : List (Nat × Bool))
  | deleteEditorReq (addImportExclusion : Bool) (deleteFiles : Bool) (seriesIds : List Nat)
deriving Repr, DecidableEq

/-- The remote world plus transport responses, which the client treats as
opaque: response items are abstract `Nat` tokens produced by the response
functions. -/
structure Env where
  catalog : List SeriesEntry
  lookupable : List Nat
  languageProfiles : List LanguageProfile
  rootFolders : List (Nat × String)
  qualityProfiles : List (Nat × String)
  tags : List (Nat × String)
  v3 : Bool
  importResp : List AddPayload → List Nat
  editorResp : EditOptions → List Nat → List Nat

/-- Whether a TVDb id is already present in the remote catalog. -/
def inCatalog (catalog : List SeriesEntry) (t : Nat) : Bool :=
  catalog.any (fun m => m.tvdbId == t)

/-- The dict `{m.tvdbId: m for m in self.all_series()}` of
`_validate_tvdb_ids`: a later catalog entry with the same TVDb id
overwrites an earlier one, so lookup returns the last match. -/
def tvdbLookup (catalog : List SeriesEntry) (t : Nat) : Option Nat :=
  ((catalog.filter (fun m => m.tvdbId == t)).getLast?).map SeriesEntry.id

/-- `SonarrAPI._validate_tvdb_ids`: partition the input into resolved
Sonarr ids and unresolved TVDb ids, in input order. -/
def _validate_tvdb_ids (catalog : List SeriesEntry) : List SeriesRef → List Nat × List Nat
  | [] => ([], [])
  | r :: rest =>
    let acc := _validate_tvdb_ids catalog rest
    match tvdbLookup catalog (refTvdb r) with
    | some sid => (sid :: acc.1, acc.2)
    | none => (acc.1, refTvdb r :: acc.2)

/-- The option lists fixed in `SonarrAPI.__init__`. -/
def monitor_options : List String :=
  ["all", "future", "missing", "existing", "pilot", "firstSeason", "latestSeason", "none"]

/-- The series type options fixed in `SonarrAPI.__init__`. -/
def series_type_options : List String := ["standard", "daily", "anime"]

/-- Modelled from the spec: `apply_tags_options` lives on the base class,
which is not under src/; spec section 6 fixes the tag-apply modes. -/
def apply_tags_options : List String := ["add", "replace", "remove"]

/-- Modelled from the spec: `util.validate_options` is not under src/; per
spec section 4.1 it returns the candidate when it is in the closed legal
set and fails `Invalid` carrying the offending value and the legal set. -/
def validate_options (_name : String) (value : String) (options : List String) :
    Except ArrError String :=
  if value ∈ options then .ok value else .error (.invalid value options)

/-- `SonarrAPI._validate_monitor`. -/
def _validate_monitor (monitor : String) : Except ArrError String :=
  validate_options "Monitor" monitor monitor_options

/-- `SonarrAPI._validate_series_type`. -/
def _validate_series_type (series_type : String) : Except ArrError String :=
  validate_options "Series Type" series_type series_type_options

/-- Modelled from the spec: the base-class validators for root folders and
quality profiles are not under src/; per spec sections 4.1 and 9 they
resolve a candidate against an ordered fetched list of `(id, name)` pairs,
returning the first match's canonical id, else `Invalid` with the
candidate and the option set. -/
def resolveEntity (items : List (Nat × String)) (ref : ProfileRef) : Except ArrError Nat :=
  match items.find? (fun it => entityMatches it ref) with
  | some it => .ok it.1
  | none => .error (.invalid ref.render (items.map Prod.snd))

/-- Modelled from the spec: `_validate_root_folder` is a base-class
validator not under src/. -/
def _validate_root_folder (env : Env) (ref : ProfileRef) : Except ArrError Nat :=
  resolveEntity env.rootFolders ref

/-- Modelled from the spec: `_validate_quality_profile` is a base-class
validator not under src/. -/
def _validate_quality_profile (env : Env) (ref : ProfileRef) : Except ArrError Nat :=
  resolveEntity env.qualityProfiles ref

/-- `SonarrAPI._validate_language_profile`: scan the fetched profiles for
the first one matching the candidate by object id, raw id or name; on no
match raise `Invalid` carrying the candidate and the full option list. -/
def _validate_language_profile (profiles : List LanguageProfile) (ref : ProfileRef) :
    Except ArrError Nat :=
  match profiles.find? (fun p => lpMatches p ref) with
  | some p => .ok p.id
  | none => .error (.invalid ref.render (profiles.map LanguageProfile.render))

/-- Modelled from the spec: `_validate_tags` is a base-class validator not
under src/; per spec section 4.2 it resolves tag references against the
fetched tag list, auto-creating missing name references (fresh ids past
the maximum) when `create` is set and failing `Invalid` otherwise. -/
def resolveTags (tags : List (Nat × String)) (create : Bool) :
    List ProfileRef → Except ArrError (List Nat)
  | [] => .ok []
  | r :: rest =>
    match r with
    | .byId i =>
      if tags.any (fun t => t.1 == i) then (resolveTags tags create rest).map (i :: ·)
      else .error (.invalid (toString i) (tags.map Prod.snd))
    | .byObj i _ =>
      if tags.any (fun t => t.1 == i) then (resolveTags tags create rest).map (i :: ·)
      else .error (.invalid (toString i) (tags.map Prod.snd))
    | .byName n =>
      match tags.find? (fun t => t.2 == n) with
      | some t => (resolveTags tags create rest).map (t.1 :: ·)
      | none =>
        if create then
          let newId := (tags.foldr (fun t m => max t.1 m) 0) + 1
          (resolveTags ((newId, n) :: tags) create rest).map (newId :: ·)
        else .error (.invalid n (tags.map Prod.snd))

/-- Arguments of `add_multiple_series` subject to option validation, with
the public method's default values. -/
structure AddInput where
  root_folder : ProfileRef
  quality_profile : ProfileRef
  language_profile : ProfileRef
  monitor : String := "all"
  season_folder : Bool := true
  search : Bool := true
  unmet_search : Bool := true
  series_type : String := "standard"
  tags : Option (List ProfileRef) := none

/-- The `tags` entry of the add-option map: the key is set only when the
argument is truthy (`if tags:`), i.e. non-`None` and non-empty. -/
def addTagsField (env : Env) : Option (List ProfileRef) → Except ArrError (Option (List Nat))
  | none => .ok none
  | some ts => if ts.isEmpty then .ok none else (resolveTags env.tags true ts).map some

/-- `SonarrAPI._validate_add_options`: validate every add option in dict
literal order, failing on the first invalid one. -/
def _validate_add_options (env : Env) (a : AddInput) : Except ArrError AddOptions :=
  (_validate_root_folder env a.root_folder).bind fun rf =>
  (_validate_quality_profile env a.quality_profile).bind fun qp =>
  (_validate_language_profile env.languageProfiles a.language_profile).bind fun lp =>
  (_validate_monitor a.monitor).bind fun mon =>
  (_validate_series_type a.series_type).bind fun st =>
  (addTagsField env a.tags).bind fun tg =>
  .ok { root_folder := rf, quality_profile := qp, language_profile := lp, monitor := mon,
        monitored := a.monitor != "none", season_folder := a.season_folder, search := a.search,
        unmet_search := a.unmet_search, series_type := st, tags := tg }

/-- Arguments of `edit_multiple_series` subject to option validation, with
the public method's default values. -/
structure EditInput where
  root_folder : Option ProfileRef := none
  path : Option String := none
  move_files : Bool := false
  quality_profile : Option ProfileRef := none
  language_profile : Option ProfileRef := none
  monitor : Option String := none
  monitored : Option Bool := none
  season_folder : Option Bool := none
  series_type : Option String := none
  tags : Option (List ProfileRef) := none
  apply_tags : String := "add"

/-- The `all(v is None for v in variables)` test of
`_validate_edit_options` over its nine editable fields. -/
def edit_fields_none (i : EditInput) : Bool :=
  i.root_folder.isNone && i.path.isNone && i.quality_profile.isNone &&
  i.language_profile.isNone && i.monitor.isNone && i.monitored.isNone &&
  i.season_folder.isNone && i.series_type.isNone && i.tags.isNone

/-- The ambiguous-call message of `_validate_edit_options`. -/
def editAllNoneMsg : String :=
  "Expected either root_folder, path, quality_profile, language_profile, monitor, monitored, season_folder, series_type, or tags args"

/-- Validation of an optional field: an absent field emits no key. -/
def optValidate {α β : Type} (f : α → Except ArrError β) :
    Option α → Except ArrError (Option β)
  | none => .ok none
  | some a => (f a).map some

/-- The tag branch of `_validate_edit_options`: resolve tags (creating
missing ones except in `remove` mode), then gate `apply_tags` against the
legal modes, raising `Invalid` on an unknown mode. -/
def editTagsFields (env : Env) (tags : Option (List ProfileRef)) (apply_tags : String) :
    Except ArrError (Option (List Nat) × Option String) :=
  match tags with
  | none => .ok (none, none)
  | some ts =>
    (resolveTags env.tags (apply_tags != "remove") ts).bind fun v =>
    if apply_tags ∈ apply_tags_options then .ok (some v, some apply_tags)
    else .error (.invalid apply_tags apply_tags_options)

/-- `SonarrAPI._validate_edit_options`: fail `ValueError` when all nine
editable fields are absent, otherwise emit only the present fields under
their API key names, `moveFiles` always present. -/
def _validate_edit_options (env : Env) (i : EditInput) : Except ArrError EditOptions :=
  if edit_fields_none i then .error (.valueError editAllNoneMsg)
  else
  (optValidate (_validate_root_folder env) i.root_folder).bind fun rf =>
  (optValidate (_validate_quality_profile env) i.quality_profile).bind fun qp =>
  (optValidate (_validate_language_profile env.languageProfiles) i.language_profile).bind fun lp =>
  (optValidate _validate_monitor i.monitor).bind fun mon =>
  (optValidate _validate_series_type i.series_type).bind fun st =>
  (editTagsFields env i.tags i.apply_tags).bind fun tga =>
  .ok { moveFiles := i.move_files, rootFolderPath := rf, path := i.path, qualityProfile := qp,
        languageProfileId := lp, monitor := mon, monitored := i.monitored,
        seasonFolder := i.season_folder, seriesType := st, tags := tga.1, applyTags := tga.2 }

/-- The slicing loop `for i in range(0, len(l), k)` shared by the bulk
operations: apply `f` to each consecutive slice `l[i:i+k]`.  Python raises
on step 0; a `k = 0` call never occurs in the modelled operations and is
mapped to the empty run. -/
def sliceCalls {α β : Type} (f : List α → β) (k : Nat) : List α → List β
  | [] => []
  | a :: t =>
    if _h : k = 0 then []
    else f ((a :: t).take k) :: sliceCalls f k ((a :: t).drop k)
termination_by l => l.length
decreasing_by
  rw [List.length_drop]
  simp only [List.length_cons]
  omega

/-- The spec-level chunk decomposition: the consecutive slices of size `k`
of a list, the last possibly shorter. -/
def chunks {α : Type} (k : Nat) : List α → List (List α)
  | [] => []
  | a :: t =>
    if _h : k = 0 then []
    else (a :: t).take k :: chunks k ((a :: t).drop k)
termination_by l => l.length
decreasing_by
  rw [List.length_drop]
  simp only [List.length_cons]
  omega

/-- `SonarrAPI._edit_series_monitoring`: the `POST /seasonPass` payload,
`monitored` derived as `monitor != "none"` for every series. -/
def _edit_series_monitoring (series_ids : List Nat) (monitor : String) : Call :=
  .seasonPassReq monitor (series_ids.map (fun s => (s, monitor != "none")))

/-- Modelled from the spec: resolving a raw TVDb id in `add_multiple_series`
goes through `get_series` into the `Series` constructor, which is not under
src/; per the spec it resolves against the remote catalog or the external
lookup and raises `NotFound` otherwise. -/
def resolve_tvdb (env : Env) (t : Nat) : Except ArrError Nat :=
  if inCatalog env.catalog t || env.lookupable.contains t then .ok t else .error .notFound

/-- Modelled from the spec: `Series._get_add_data` is not under src/; per
the spec it raises `Exists` when the series is already present remotely and
otherwise yields the import payload for the show. -/
def _get_add_data (env : Env) (tvdbId : Nat) (options : AddOptions) :
    Except ArrError AddPayload :=
  if inCatalog env.catalog tvdbId then .error .alreadyExists else .ok (tvdbId, options)

/-- The per-item loop of `add_multiple_series`: resolve each reference
(`except NotFound` appends to the not-found bucket), then build its
payload (`except Exists` appends to the already-present bucket). -/
def addClassify (env : Env) (options : AddOptions) :
    List SeriesRef → List AddPayload × List Nat × List Nat
  | [] => ([], [], [])
  | r :: rest =>
    let acc := addClassify env options rest
    match (match r with
           | .obj s => Except.ok s.tvdbId
           | .rawId t => resolve_tvdb env t) with
    | .error _ => (acc.1, acc.2.1, refTvdb r :: acc.2.2)
    | .ok sh =>
      match _get_add_data env sh options with
      | .ok payload => (payload :: acc.1, acc.2.1, acc.2.2)
      | .error _ => (acc.1, sh :: acc.2.1, acc.2.2)

/-- The outcome of one `add_multiple_series` input item. -/
inductive AddOutcome where
  | queued
  | existing
  | notFound
deriving Repr, DecidableEq

/-- Which bucket an input reference lands in: present remotely means
already-exists; otherwise an object or a lookup-resolvable id is queued;
an id resolving nowhere is not-found. -/
def addOutcome (env : Env) : SeriesRef → AddOutcome
  | .obj s => if inCatalog env.catalog s.tvdbId then .existing else .queued
  | .rawId t =>
    if inCatalog env.catalog t then .existing
    else if env.lookupable.contains t then .queued
    else .notFound

/-- `SonarrAPI.add_multiple_series`: validate options, classify every
input into queued/existing/not-found, then import the queued payloads in
`per_request`-sized slices (the whole list as one slice by default),
accumulating the remote responses. -/
def add_multiple_series (env : Env) (refs : List SeriesRef) (a : AddInput)
    (per_request : Option Nat) :
    Except ArrError (List Nat × List Nat × List Nat) × List Call :=
  match _validate_add_options env a with
  | .error e => (.error e, [])
  | .ok options =>
    let acc := addClassify env options refs
    if acc.1.length > 0 then
      let k := per_request.getD acc.1.length
      (.ok ((sliceCalls env.importResp k acc.1).flatten, acc.2.1, acc.2.2),
       sliceCalls Call.importReq k acc.1)
    else (.ok ([], acc.2.1, acc.2.2), [])

/-- `SonarrAPI.edit_multiple_series`: validate edit options once, reconcile
all ids, then (when at least one id resolved) pop a present `monitor`
option into a separate batched `seasonPass` call sequence issued before the
batched `series/editor` sequence, both over the same slices. -/
def edit_multiple_series (env : Env) (refs : List SeriesRef) (i : EditInput)
    (per_request : Option Nat) :
    Except ArrError (List Nat × List Nat) × List Call :=
  match _validate_edit_options env i with
  | .error e => (.error e, [])
  | .ok json =>
    let vi := _validate_tvdb_ids env.catalog refs
    if vi.1.length > 0 then
      let k := per_request.getD vi.1.length
      match json.monitor with
      | some m =>
        let json2 := { json with monitor := none }
        (.ok ((sliceCalls (env.editorResp json2) k vi.1).flatten, vi.2),
         sliceCalls (fun c => _edit_series_monitoring c m) k vi.1
           ++ sliceCalls (Call.editorReq json2) k vi.1)
      | none =>
        (.ok ((sliceCalls (env.editorResp json) k vi.1).flatten, vi.2),
         sliceCalls (Call.editorReq json) k vi.1)
    else (.ok ([], vi.2), [])

/-- `SonarrAPI.delete_multiple_series`: reconcile ids, then issue one
batched delete-editor call per slice; only the unresolved ids are
returned. -/
def delete_multiple_series (env : Env) (refs : List SeriesRef)
    (addImportExclusion : Bool) (deleteFiles : Bool) (per_request : Option Nat) :
    List Nat × List Call :=
  let vi := _validate_tvdb_ids env.catalog refs
  if vi.1.length > 0 then
    let k := per_request.getD vi.1.length
    (vi.2, sliceCalls (Call.deleteEditorReq addImportExclusion deleteFiles) k vi.1)
  else (vi.2, [])

/-- A small concrete remote environment used by the witness instances:
one catalogued series (Sonarr id 10, TVDb id 1), one lookup-resolvable
TVDb id (2), and singleton reference lists. -/
def envW : Env where
  catalog := [⟨10, 1⟩]
  lookupable := [2]
  languageProfiles := [⟨1, "en"⟩, ⟨2, "fr"⟩]
  rootFolders := [(1, "rootA")]
  qualityProfiles := [(1, "hd")]
  tags := [(1, "t1")]
  v3 := true
  importResp := fun payload => payload.map Prod.fst
  editorResp := fun _ ids => ids

/-- A concrete valid add-option argument set against `envW`. -/
def aW : AddInput where
  root_folder := .byId 1
  quality_profile := .byId 1
  language_profile := .byId 1

/-- An add-option argument set whose root folder fails validation
against `envW`. -/
def aBad : AddInput where
  root_folder := .byId 99
  quality_profile := .byId 1
  language_profile := .byId 1

/-- The validated add options of `aW` against `envW`. -/
def optionsW : AddOptions where
  root_folder := 1
  quality_profile := 1
  language_profile := 1
  monitor := "all"
  monitored := true
  season_folder := true
  search := true
  unmet_search := true
  series_type := "standard"

/-- A concrete edit input carrying only a monitor change. -/
def iW : EditInput where
  monitor := some "all"

/-- The validated edit options of `iW` against `envW`. -/
def jsonW : EditOptions where
  moveFiles := false
  monitor := some "all"

/-- Witness input references against `envW`: one already catalogued, one
lookup-resolvable, one resolving nowhere. -/
def refsW : List SeriesRef := [.rawId 1, .rawId 2, .rawId 999]

theorem chunks_nil {α : Type} (k : Nat) : chunks k ([] : List α) = [] := by
  simp [chunks]

theorem chunks_cons {α : Type} (k : Nat) (a : α) (t : List α) :
    chunks k (a :: t) =
      if k = 0 then [] else (a :: t).take k :: chunks k ((a :: t).drop k) := by
  rw [chunks.eq_def]
  simp only [dite_eq_ite]

theorem sliceCalls_nil {α β : Type} (f : List α → β) (k : Nat) :
    sliceCalls f k ([] : List α) = [] := by
  simp [sliceCalls]

theorem sliceCalls_cons {α β : Type} (f : List α → β) (k : Nat) (a : α) (t : List α) :
    sliceCalls f k (a :: t) =
      if k = 0 then [] else f ((a :: t).take k) :: sliceCalls f k ((a :: t).drop k) := by
  rw [sliceCalls.eq_def]
  simp only [dite_eq_ite]

/-- The slicing loop is the map of the remote operation over the chunk
decomposition. -/
theorem sliceCalls_eq_chunks_map {α β : Type} (f : List α → β) (k : Nat) (l : List α) :
    sliceCalls f k l = (chunks k l).map f := by
  have H : ∀ (n : Nat) (l : List α), l.length ≤ n →
      sliceCalls f k l = (chunks k l).map f := by
    intro n
    induction n with
    | zero =>
      intro l hl
      have h0 : l = [] := List.length_eq_zero.mp (Nat.le_zero.mp hl)
      subst h0
      simp [sliceCalls_nil, chunks_nil]
    | succ n ih =>
      intro l hl
      cases l with
      | nil => simp [sliceCalls_nil, chunks_nil]
      | cons a t =>
        rw [sliceCalls_cons, chunks_cons]
        by_cases hk : k = 0
        · simp [hk]
        · simp only [if_neg hk, List.map_cons]
          have hlen : ((a :: t).drop k).length ≤ n := by
            rw [List.length_drop]
            simp only [List.length_cons] at hl ⊢
            omega
          rw [ih _ hlen]
  exact H l.length l (Nat.le_refl _)

/-- The number of chunks is the ceiling of `n / k`. -/
theorem chunks_length {α : Type} {k : Nat} (hk : 0 < k) (l : List α) :
    (chunks k l).length = (l.length + k - 1) / k := by
  have H : ∀ (n : Nat) (l : List α), l.length ≤ n →
      (chunks k l).length = (l.length + k - 1) / k := by
    intro n
    induction n with
    | zero =>
      intro l hl
      have h0 : l = [] := List.length_eq_zero.mp (Nat.le_zero.mp hl)
      subst h0
      simp only [chunks_nil, List.length_nil, Nat.zero_add]
      exact (Nat.div_eq_of_lt (by omega)).symm
    | succ n ih =>
      intro l hl
      cases l with
      | nil =>
        simp only [chunks_nil, List.length_nil, Nat.zero_add]
        exact (Nat.div_eq_of_lt (by omega)).symm
      | cons a t =>
        rw [chunks_cons, if_neg (by omega : ¬ k = 0)]
        have hlen : ((a :: t).drop k).length ≤ n := by
          rw [List.length_drop]
          simp only [List.length_cons] at hl ⊢
          omega
        simp only [List.length_cons]
        rw [ih _ hlen, List.length_drop]
        simp only [List.length_cons]
        rcases le_or_lt (t.length + 1) k with hc | hc
        · have h1 : t.length + 1 - k = 0 := by omega
          rw [h1]
          have h2 : (0 + k - 1) / k = 0 := by
            rw [Nat.zero_add]
            exact Nat.div_eq_of_lt (by omega)
          have h3 : (t.length + 1 + k - 1) / k = 1 :=
            Nat.div_eq_of_lt_le (by omega) (by omega)
          rw [h2, h3]
        · have h1 : t.length + 1 - k + k - 1 = t.length := by omega
          have h2 : t.length + 1 + k - 1 = t.length + k := by omega
          rw [h1, h2, Nat.add_div_right _ hk]
  exact H l.length l (Nat.le_refl _)

/-- Concatenating the chunks recovers the input list. -/
theorem chunks_flatten {α : Type} {k : Nat} (hk : 0 < k) (l : List α) :
    (chunks k l).flatten = l := by
  have H : ∀ (n : Nat) (l : List α), l.length ≤ n → (chunks k l).flatten = l := by
    intro n
    induction n with
    | zero =>
      intro l hl
      have h0 : l = [] := List.length_eq_zero.mp (Nat.le_zero.mp hl)
      subst h0
      simp [chunks_nil]
    | succ n ih =>
      intro l hl
      cases l with
      | nil => simp [chunks_nil]
      | cons a t =>
        rw [chunks_cons, if_neg (by omega : ¬ k = 0)]
        have hlen : ((a :: t).drop k).length ≤ n := by
          rw [List.length_drop]
          simp only [List.length_cons] at hl ⊢
          omega
        rw [List.flatten_cons, ih _ hlen, List.take_append_drop]
  exact H l.length l (Nat.le_refl _)

/-- Every chunk is a nonempty slice of at most `k` items. -/
theorem chunks_mem {α : Type} {k : Nat} (l : List α) :
    ∀ c ∈ chunks k l, c ≠ [] ∧ c.length ≤ k := by
  have H : ∀ (n : Nat) (l : List α), l.length ≤ n →
      ∀ c ∈ chunks k l, c ≠ [] ∧ c.length ≤ k := by
    intro n
    induction n with
    | zero =>
      intro l hl
      have h0 : l = [] := List.length_eq_zero.mp (Nat.le_zero.mp hl)
      subst h0
      simp [chunks_nil]
    | succ n ih =>
      intro l hl
      cases l with
      | nil => simp [chunks_nil]
      | cons a t =>
        by_cases hk : k = 0
        · rw [chunks_cons, if_pos hk]
          simp
        · rw [chunks_cons, if_neg hk]
          intro c hc
          rcases List.mem_cons.mp hc with h | h
          · subst h
            constructor
            · obtain ⟨m, rfl⟩ := Nat.exists_eq_succ_of_ne_zero hk
              simp [List.take_succ_cons]
            · rw [List.length_take]
              omega
          · have hlen : ((a :: t).drop k).length ≤ n := by
              rw [List.length_drop]
              simp only [List.length_cons] at hl ⊢
              omega
            exact ih _ hlen c h
  exact H l.length l (Nat.le_refl _)

/-- Chunk elements come from the input list. -/
theorem chunks_subset {α : Type} {k : Nat} (l : List α) :
    ∀ c ∈ chunks k l, ∀ x ∈ c, x ∈ l := by
  have H : ∀ (n : Nat) (l : List α), l.length ≤ n →
      ∀ c ∈ chunks k l, ∀ x ∈ c, x ∈ l := by
    intro n
    induction n with
    | zero =>
      intro l hl
      have h0 : l = [] := List.length_eq_zero.mp (Nat.le_zero.mp hl)
      subst h0
      simp [chunks_nil]
    | succ n ih =>
      intro l hl
      cases l with
      | nil => simp [chunks_nil]
      | cons a t =>
        by_cases hk : k = 0
        · rw [chunks_cons, if_pos hk]
          simp
        · rw [chunks_cons, if_neg hk]
          intro c hc x hx
          rcases List.mem_cons.mp hc with h | h
          · subst h
            exact List.take_subset _ _ hx
          · have hlen : ((a :: t).drop k).length ≤ n := by
              rw [List.length_drop]
              simp only [List.length_cons] at hl ⊢
              omega
            exact List.drop_subset _ _ (ih _ hlen c h x hx)
  exact H l.length l (Nat.le_refl _)

/-- All chunks except possibly the last have exactly `k` items. -/
theorem chunks_dropLast {α : Type} {k : Nat} (l : List α) :
    ∀ c ∈ (chunks k l).dropLast, c.length = k := by
  have H : ∀ (n : Nat) (l : List α), l.length ≤ n →
      ∀ c ∈ (chunks k l).dropLast, c.length = k := by
    intro n
    induction n with
    | zero =>
      intro l hl
      have h0 : l = [] := List.length_eq_zero.mp (Nat.le_zero.mp hl)
      subst h0
      simp [chunks_nil]
    | succ n ih =>
      intro l hl
      cases l with
      | nil => simp [chunks_nil]
      | cons a t =>
        by_cases hk : k = 0
        · rw [chunks_cons, if_pos hk]
          simp
        · rw [chunks_cons, if_neg hk]
          have hlen : ((a :: t).drop k).length ≤ n := by
            rw [List.length_drop]
            simp only [List.length_cons] at hl ⊢
            omega
          cases hd : chunks k ((a :: t).drop k) with
          | nil => simp [hd]
          | cons c2 rest2 =>
            rw [List.dropLast_cons₂]
            intro c hc
            rcases List.mem_cons.mp hc with h | h
            · subst h
              have hdrop : (a :: t).drop k ≠ [] := by
                intro h0
                rw [h0, chunks_nil] at hd
                cases hd
              have hklt : k < (a :: t).length := by
                have := List.length_drop k (a :: t)
                rcases Nat.lt_or_ge k (a :: t).length with h1 | h1
                · exact h1
                · exact absurd (List.drop_eq_nil_of_le h1) hdrop
              rw [List.length_take]
              omega
            · exact ih _ hlen c (by rw [hd]; exact h)
  exact H l.length l (Nat.le_refl _)

/-- With the default chunk size (the whole list), a nonempty list forms a
single chunk. -/
theorem chunks_self {α : Type} (l : List α) (hl : l ≠ []) :
    chunks l.length l = [l] := by
  cases l with
  | nil => exact absurd rfl hl
  | cons a t =>
    rw [chunks_cons, if_neg (by simp : ¬ (a :: t).length = 0)]
    rw [List.take_length, List.drop_length, chunks_nil]

/-- Claim C1: every element of the input to `_validate_tvdb_ids` lands in
exactly one of the two output lists, so the output lengths sum to the
input length even with duplicate inputs; moreover the resolved list is the
in-order `filterMap` of the catalog lookup over the input and the
unresolved list the in-order `filter` of the unresolvable TVDb ids, so
each output preserves relative input order and maps duplicate inputs to
duplicate outputs. -/
theorem validate_tvdb_ids_partitions (catalog : List SeriesEntry) (refs : List SeriesRef) :
    (_validate_tvdb_ids catalog refs).1.length + (_validate_tvdb_ids catalog refs).2.length
      = refs.length ∧
    (_validate_tvdb_ids catalog refs).1
      = refs.filterMap (fun r => tvdbLookup catalog (refTvdb r)) ∧
    (_validate_tvdb_ids catalog refs).2
      = (refs.map refTvdb).filter (fun t => (tvdbLookup catalog t).isNone) := by
  induction refs with
  | nil => simp [_validate_tvdb_ids]
  | cons r rest ih =>
    obtain ⟨ih1, ih2, ih3⟩ := ih
    cases h : tvdbLookup catalog (refTvdb r) with
    | some sid =>
      refine ⟨?_, ?_, ?_⟩
      · simp only [_validate_tvdb_ids, h, List.length_cons]
        omega
      · simp [_validate_tvdb_ids, h, ih2, List.filterMap_cons]
      · simp [_validate_tvdb_ids, h, ih3, List.filter_cons]
    | none =>
      refine ⟨?_, ?_, ?_⟩
      · simp only [_validate_tvdb_ids, h, List.length_cons]
        omega
      · simp [_validate_tvdb_ids, h, ih2, List.filterMap_cons]
      · simp [_validate_tvdb_ids, h, ih3, List.filter_cons]

theorem addClassify_spec (env : Env) (options : AddOptions) (refs : List SeriesRef) :
    (addClassify env options refs).1
      = (refs.filter (fun r => addOutcome env r = AddOutcome.queued)).map
          (fun r => (refTvdb r, options)) ∧
    (addClassify env options refs).2.1
      = (refs.filter (fun r => addOutcome env r = AddOutcome.existing)).map refTvdb ∧
    (addClassify env options refs).2.2
      = (refs.filter (fun r => addOutcome env r = AddOutcome.notFound)).map refTvdb := by
  induction refs with
  | nil => simp [addClassify]
  | cons r rest ih =>
    obtain ⟨ih1, ih2, ih3⟩ := ih
    cases r with
    | obj s =>
      by_cases h : inCatalog env.catalog s.tvdbId
      · simp [addClassify, _get_add_data, addOutcome, h, ih1, ih2, ih3,
          List.filter_cons, refTvdb]
      · simp [addClassify, _get_add_data, addOutcome, h, ih1, ih2, ih3,
          List.filter_cons, refTvdb]
    | rawId t =>
      by_cases h1 : inCatalog env.catalog t
      · simp [addClassify, resolve_tvdb, _get_add_data, addOutcome, h1, ih1, ih2, ih3,
          List.filter_cons, refTvdb]
      · by_cases h2 : t ∈ env.lookupable
        · simp [addClassify, resolve_tvdb, _get_add_data, addOutcome, h1, h2, ih1, ih2, ih3,
            List.filter_cons, refTvdb]
        · simp [addClassify, resolve_tvdb, _get_add_data, addOutcome, h1, h2, ih1, ih2, ih3,
            List.filter_cons, refTvdb]

theorem addOutcome_filter_length (env : Env) (refs : List SeriesRef) :
    (refs.filter (fun r => addOutcome env r = AddOutcome.queued)).length
      + (refs.filter (fun r => addOutcome env r = AddOutcome.existing)).length
      + (refs.filter (fun r => addOutcome env r = AddOutcome.notFound)).length
      = refs.length := by
  induction refs with
  | nil => simp
  | cons r rest ih =>
    cases h : addOutcome env r <;> simp [List.filter_cons, h] <;> omega

theorem except_map_error {α β : Type} {f : α → β} {x : Except ArrError α} {e : ArrError}
    (h : x.map f = .error e) : x = .error e := by
  cases x with
  | ok a => simp [Except.map] at h
  | error e2 => simp only [Except.map] at h; injection h with h2; rw [h2]

theorem except_bind_error {α β : Type} {x : Except ArrError α} {f : α → Except ArrError β}
    {e : ArrError} (h : x.bind f = .error e) :
    x = .error e ∨ ∃ a, x = .ok a ∧ f a = .error e := by
  cases x with
  | error e2 => left; simpa [Except.bind] using h
  | ok a => right; exact ⟨a, rfl, by simpa [Except.bind] using h⟩

theorem resolveEntity_error {items : List (Nat × String)} {ref : ProfileRef} {e : ArrError}
    (h : resolveEntity items ref = .error e) : e.validationOnly = true := by
  unfold resolveEntity at h
  split at h
  · simp at h
  · injection h with h2
    subst h2
    rfl

theorem validate_options_error {nm value : String} {options : List String} {e : ArrError}
    (h : validate_options nm value options = .error e) : e.validationOnly = true := by
  unfold validate_options at h
  split at h
  · simp at h
  · injection h with h2
    subst h2
    rfl

theorem language_profile_error {profiles : List LanguageProfile} {ref : ProfileRef}
    {e : ArrError} (h : _validate_language_profile profiles ref = .error e) :
    e.validationOnly = true := by
  unfold _validate_language_profile at h
  split at h
  · simp at h
  · injection h with h2
    subst h2
    rfl

theorem resolveTags_error {create : Bool} :
    ∀ (refs : List ProfileRef) (tags : List (Nat × String)) (e : ArrError),
      resolveTags tags create refs = .error e → e.validationOnly = true := by
  intro refs
  induction refs with
  | nil =>
    intro tags2 e h
    simp [resolveTags] at h
  | cons r rest ih =>
    intro tags2 e h
    cases r with
    | byId i =>
      simp only [resolveTags] at h
      split at h
      · have h2 := except_map_error h
        exact ih tags2 _ h2
      · injection h with h2
        subst h2
        rfl
    | byObj i nm =>
      simp only [resolveTags] at h
      split at h
      · have h2 := except_map_error h
        exact ih tags2 _ h2
      · injection h with h2
        subst h2
        rfl
    | byName nm =>
      simp only [resolveTags] at h
      split at h
      · have h2 := except_map_error h
        exact ih tags2 _ h2
      · split at h
        · have h2 := except_map_error h
          exact ih _ _ h2
        · injection h with h2
          subst h2
          rfl

theorem addTagsField_error {env : Env} {tags : Option (List ProfileRef)} {e : ArrError}
    (h : addTagsField env tags = .error e) : e.validationOnly = true := by
  cases tags with
  | none => simp [addTagsField] at h
  | some ts =>
    simp only [addTagsField] at h
    split at h
    · simp at h
    · exact resolveTags_error _ _ _ (except_map_error h)

theorem editTagsFields_error {env : Env} {tags : Option (List ProfileRef)}
    {apply_tags : String} {e : ArrError}
    (h : editTagsFields env tags apply_tags = .error e) : e.validationOnly = true := by
  cases tags with
  | none => simp [editTagsFields] at h
  | some ts =>
    simp only [editTagsFields] at h
    rcases except_bind_error h with h1 | ⟨v, h1, h2⟩
    · exact resolveTags_error _ _ _ h1
    · split at h2
      · simp at h2
      · injection h2 with h3
        subst h3
        rfl

theorem optValidate_error {α β : Type} {f : α → Except ArrError β} {x : Option α}
    {e : ArrError} (hf : ∀ a {e2}, f a = .error e2 → e2.validationOnly = true)
    (h : optValidate f x = .error e) : e.validationOnly = true := by
  cases x with
  | none => simp [optValidate] at h
  | some a => exact hf a (except_map_error h)

theorem validate_add_options_error {env : Env} {a : AddInput} {e : ArrError}
    (h : _validate_add_options env a = .error e) : e.validationOnly = true := by
  unfold _validate_add_options at h
  rcases except_bind_error h with h1 | ⟨rf, h1, h⟩
  · exact resolveEntity_error h1
  rcases except_bind_error h with h2 | ⟨qp, h2, h⟩
  · exact resolveEntity_error h2
  rcases except_bind_error h with h3 | ⟨lp, h3, h⟩
  · exact language_profile_error h3
  rcases except_bind_error h with h4 | ⟨mon, h4, h⟩
  · exact validate_options_error h4
  rcases except_bind_error h with h5 | ⟨st, h5, h⟩
  · exact validate_options_error h5
  rcases except_bind_error h with h6 | ⟨tg, h6, h⟩
  · exact addTagsField_error h6
  simp at h

theorem editOptions_update_monitor_none {o : EditOptions} (h : o.monitor = none) :
    { o with monitor := none } = o := by
  cases o
  simp only at h
  subst h
  rfl

/-- The trace/result of `add_multiple_series` under successful validation,
phrased through the chunk decomposition. -/
theorem add_multiple_series_eq (env : Env) (refs : List SeriesRef) (a : AddInput)
    (pr : Option Nat) (options : AddOptions)
    (hv : _validate_add_options env a = .ok options) :
    add_multiple_series env refs a pr =
      (if (addClassify env options refs).1.length > 0 then
        (.ok (((chunks (pr.getD (addClassify env options refs).1.length)
                  (addClassify env options refs).1).map env.importResp).flatten,
              (addClassify env options refs).2.1, (addClassify env options refs).2.2),
         (chunks (pr.getD (addClassify env options refs).1.length)
            (addClassify env options refs).1).map Call.importReq)
       else (.ok ([], (addClassify env options refs).2.1, (addClassify env options refs).2.2),
             [])) := by
  simp [add_multiple_series, hv, sliceCalls_eq_chunks_map]

/-- The trace/result of `edit_multiple_series` under successful validation,
phrased through the chunk decomposition: a leading `seasonPass` phase when
a monitor change is present, followed by the `series/editor` phase over
the same chunks of the same resolved ids, with the `monitor` key popped. -/
theorem edit_multiple_series_eq (env : Env) (refs : List SeriesRef) (i : EditInput)
    (pr : Option Nat) (json : EditOptions)
    (hv : _validate_edit_options env i = .ok json) :
    edit_multiple_series env refs i pr =
      (if (_validate_tvdb_ids env.catalog refs).1.length > 0 then
        (.ok (((chunks (pr.getD (_validate_tvdb_ids env.catalog refs).1.length)
                  (_validate_tvdb_ids env.catalog refs).1).map
                (env.editorResp { json with monitor := none })).flatten,
              (_validate_tvdb_ids env.catalog refs).2),
         (match json.monitor with
          | some m =>
            (chunks (pr.getD (_validate_tvdb_ids env.catalog refs).1.length)
               (_validate_tvdb_ids env.catalog refs).1).map
              (fun c => _edit_series_monitoring c m)
          | none => []) ++
          (chunks (pr.getD (_validate_tvdb_ids env.catalog refs).1.length)
             (_validate_tvdb_ids env.catalog refs).1).map
            (Call.editorReq { json with monitor := none }))
       else (.ok ([], (_validate_tvdb_ids env.catalog refs).2), [])) := by
  cases hm : json.monitor with
  | some m =>
    simp [edit_multiple_series, hv, hm, sliceCalls_eq_chunks_map]
  | none =>
    have hup : { json with monitor := none } = json := editOptions_update_monitor_none hm
    simp [edit_multiple_series, hv, hm, hup, sliceCalls_eq_chunks_map]

/-- Claim C5: `add_multiple_series` never surfaces `Exists` (nor `NotFound`)
to the caller: any error it returns is a validation error; under successful
validation every input reference lands in exactly one of the queued,
already-exists, or not-found buckets (the bucket lists are the in-order
classification filters, and their lengths sum to the input length), and
the already-exists bucket collects exactly the references whose payload
construction raised `Exists`. -/
theorem add_multiple_series_outcomes (env : Env) (refs : List SeriesRef) (a : AddInput)
    (pr : Option Nat) :
    (∀ e, (add_multiple_series env refs a pr).1 = .error e → e.validationOnly = true) ∧
    (∀ options, _validate_add_options env a = .ok options →
      (addClassify env options refs).1
          = (refs.filter (fun r => addOutcome env r = AddOutcome.queued)).map
              (fun r => (refTvdb r, options)) ∧
      (addClassify env options refs).2.1
          = (refs.filter (fun r => addOutcome env r = AddOutcome.existing)).map refTvdb ∧
      (addClassify env options refs).2.2
          = (refs.filter (fun r => addOutcome env r = AddOutcome.notFound)).map refTvdb ∧
      (∃ series, (add_multiple_series env refs a pr).1
          = .ok (series, (addClassify env options refs).2.1,
                 (addClassify env options refs).2.2)) ∧
      (addClassify env options refs).1.length + (addClassify env options refs).2.1.length
          + (addClassify env options refs).2.2.length = refs.length) := by
  constructor
  · intro e he
    cases hv : _validate_add_options env a with
    | error e2 =>
      have he2 : e2 = e := by simpa [add_multiple_series, hv] using he
      subst he2
      exact validate_add_options_error hv
    | ok options =>
      exfalso
      rw [add_multiple_series_eq env refs a pr options hv] at he
      split at he <;> simp at he
  · intro options hv
    obtain ⟨hq, hex, hnf⟩ := addClassify_spec env options refs
    refine ⟨hq, hex, hnf, ?_, ?_⟩
    · rw [add_multiple_series_eq env refs a pr options hv]
      by_cases hlen : (addClassify env options refs).1.length > 0
      · exact ⟨_, by rw [if_pos hlen]⟩
      · exact ⟨[], by rw [if_neg hlen]⟩
    · rw [hq, hex, hnf]
      simp only [List.length_map]
      exact addOutcome_filter_length env refs

/-- Claim C6: when option validation fails (an `Invalid` or `ValueError`
condition), the bulk call returns that error with an empty call trace: no
import, editor, seasonPass or delete-editor request is issued. -/
theorem bulk_calls_fail_fast (env : Env) (refs : List SeriesRef) (a : AddInput)
    (i : EditInput) (pr : Option Nat) (e : ArrError) :
    (_validate_add_options env a = .error e →
      add_multiple_series env refs a pr = (.error e, [])) ∧
    (_validate_edit_options env i = .error e →
      edit_multiple_series env refs i pr = (.error e, [])) := by
  constructor
  · intro h
    simp [add_multiple_series, h]
  · intro h
    simp [edit_multiple_series, h]

/-- Claim C8: when no supplied identifier resolves against the remote
catalog, `edit_multiple_series` terminates after reconciliation with the
unresolved ids and an empty call trace: no `series/editor` or `seasonPass`
request is issued. -/
theorem edit_no_resolved_fail_fast (env : Env) (refs : List SeriesRef) (i : EditInput)
    (pr : Option Nat) (json : EditOptions)
    (hv : _validate_edit_options env i = .ok json)
    (hempty : (_validate_tvdb_ids env.catalog refs).1 = []) :
    edit_multiple_series env refs i pr
      = (.ok ([], (_validate_tvdb_ids env.catalog refs).2), []) := by
  simp [edit_multiple_series, hv, hempty]

theorem mem_ite_singleton_iff {α : Type} {x s : α} {c : Prop} [Decidable c] :
    (x ∈ if c then [s] else []) ↔ (c ∧ x = s) := by
  split
  · rename_i hc
    simp [hc]
  · rename_i hc
    simp [hc]

theorem monitor_key_absent {v3 : Bool} {o : EditOptions} (h : o.monitor = none) :
    "monitor" ∉ editOptionsKeys v3 o := by
  cases v3 <;> simp [editOptionsKeys, h, mem_ite_singleton_iff]

theorem add_multiple_series_ok (env : Env) (refs : List SeriesRef) (a : AddInput)
    (pr : Option Nat) (options : AddOptions)
    (hv : _validate_add_options env a = .ok options) :
    ∃ series, (add_multiple_series env refs a pr).1
      = .ok (series, (addClassify env options refs).2.1,
             (addClassify env options refs).2.2) := by
  rw [add_multiple_series_eq env refs a pr options hv]
  by_cases hlen : (addClassify env options refs).1.length > 0
  · exact ⟨_, by rw [if_pos hlen]⟩
  · exact ⟨[], by rw [if_neg hlen]⟩

/-- Claim C10: a supplied monitor option is popped from the option map
before any `series/editor` payload is built, so no editor payload carries
the `monitor` key; and all editor chunks of one call share the identical
option map, differing only in the seriesIds slice. -/
theorem editor_payloads_monitor_free (env : Env) (refs : List SeriesRef) (i : EditInput)
    (pr : Option Nat) :
    (∀ o ids, Call.editorReq o ids ∈ (edit_multiple_series env refs i pr).2 →
      o.monitor = none ∧ "monitor" ∉ editOptionsKeys env.v3 o) ∧
    (∀ o ids o2 ids2, Call.editorReq o ids ∈ (edit_multiple_series env refs i pr).2 →
      Call.editorReq o2 ids2 ∈ (edit_multiple_series env refs i pr).2 → o = o2) := by
  have main : ∀ o ids, Call.editorReq o ids ∈ (edit_multiple_series env refs i pr).2 →
      ∃ json, _validate_edit_options env i = .ok json ∧ o = { json with monitor := none } := by
    intro o ids h
    cases hv : _validate_edit_options env i with
    | error e =>
      exfalso
      simp [edit_multiple_series, hv] at h
    | ok json =>
      refine ⟨json, rfl, ?_⟩
      rw [edit_multiple_series_eq env refs i pr json hv] at h
      split at h
      · simp only [List.mem_append] at h
        rcases h with h | h
        · exfalso
          cases hm : json.monitor with
          | some m =>
            rw [hm] at h
            obtain ⟨c, _, hc⟩ := List.mem_map.mp h
            simp [_edit_series_monitoring] at hc
          | none =>
            rw [hm] at h
            simp at h
        · obtain ⟨c, _, hc⟩ := List.mem_map.mp h
          injection hc with hc1 hc2
          exact hc1.symm
      · simp at h
  constructor
  · intro o ids h
    obtain ⟨json, _, ho⟩ := main o ids h
    subst ho
    exact ⟨rfl, monitor_key_absent rfl⟩
  · intro o ids o2 ids2 h h2
    obtain ⟨json, hv, ho⟩ := main o ids h
    obtain ⟨json2, hv2, ho2⟩ := main o2 ids2 h2
    rw [hv] at hv2
    injection hv2 with hj
    rw [ho, ho2, hj]

/-- Claim C3: with a validated monitor change and at least one resolved
identifier, the whole `seasonPass` phase precedes the whole
`series/editor` phase in the call trace, both phases mapping the same
chunk decomposition (same chunk size) of the same resolved-id list. -/
theorem monitor_phase_before_editor_phase (env : Env) (refs : List SeriesRef) (i : EditInput)
    (pr : Option Nat) (json : EditOptions) (m : String)
    (hv : _validate_edit_options env i = .ok json)
    (hm : json.monitor = some m)
    (hres : (_validate_tvdb_ids env.catalog refs).1 ≠ []) :
    (edit_multiple_series env refs i pr).2 =
      (chunks (pr.getD (_validate_tvdb_ids env.catalog refs).1.length)
         (_validate_tvdb_ids env.catalog refs).1).map (fun c => _edit_series_monitoring c m)
      ++ (chunks (pr.getD (_validate_tvdb_ids env.catalog refs).1.length)
            (_validate_tvdb_ids env.catalog refs).1).map
           (Call.editorReq { json with monitor := none }) := by
  rw [edit_multiple_series_eq env refs i pr json hv]
  have hlen : (_validate_tvdb_ids env.catalog refs).1.length > 0 := by
    cases hc : (_validate_tvdb_ids env.catalog refs).1 with
    | nil => exact absurd hc hres
    | cons x xs => simp [hc]
  rw [if_pos hlen]
  simp [hm]

/-- Claim C2: for chunk size `k ≥ 1` the chunk decomposition used by every
bulk operation has exactly `ceil(n/k)` chunks, consecutive slices of size
`k` with a possibly-shorter nonempty last slice whose concatenation is the
input; an unspecified `per_request` makes the whole list one chunk (zero
calls when it is empty); and each batched phase of
`add_multiple_series`, `edit_multiple_series` and `delete_multiple_series`
issues one remote call per chunk, the returned list being the in-order
concatenation of the per-chunk remote responses. -/
theorem bulk_batching {α : Type} (k : Nat) (hk : 0 < k) (l : List α) (env : Env)
    (refs : List SeriesRef) (a : AddInput) (i : EditInput) (ai df : Bool) :
    ((chunks k l).length = (l.length + k - 1) / k) ∧
    ((chunks k l).flatten = l) ∧
    (∀ c ∈ chunks k l, c ≠ [] ∧ c.length ≤ k) ∧
    (∀ c ∈ (chunks k l).dropLast, c.length = k) ∧
    (l ≠ [] → chunks l.length l = [l]) ∧
    (∀ options, _validate_add_options env a = .ok options →
      add_multiple_series env refs a (some k) =
        (.ok (((chunks k (addClassify env options refs).1).map env.importResp).flatten,
              (addClassify env options refs).2.1, (addClassify env options refs).2.2),
         (chunks k (addClassify env options refs).1).map Call.importReq) ∧
      add_multiple_series env refs a none =
        (.ok ((if (addClassify env options refs).1 = [] then []
               else env.importResp (addClassify env options refs).1),
              (addClassify env options refs).2.1, (addClassify env options refs).2.2),
         if (addClassify env options refs).1 = [] then []
         else [Call.importReq (addClassify env options refs).1])) ∧
    (∀ json, _validate_edit_options env i = .ok json →
      edit_multiple_series env refs i (some k) =
        (.ok (((chunks k (_validate_tvdb_ids env.catalog refs).1).map
                 (env.editorResp { json with monitor := none })).flatten,
              (_validate_tvdb_ids env.catalog refs).2),
         (match json.monitor with
          | some m => (chunks k (_validate_tvdb_ids env.catalog refs).1).map
                        (fun c => _edit_series_monitoring c m)
          | none => []) ++
          (chunks k (_validate_tvdb_ids env.catalog refs).1).map
            (Call.editorReq { json with monitor := none }))) ∧
    (delete_multiple_series env refs ai df (some k) =
      ((_validate_tvdb_ids env.catalog refs).2,
       (chunks k (_validate_tvdb_ids env.catalog refs).1).map
         (Call.deleteEditorReq ai df))) := by
  refine ⟨chunks_length hk l, chunks_flatten hk l, chunks_mem l, chunks_dropLast l,
    chunks_self l, ?_, ?_, ?_⟩
  · intro options hv
    constructor
    · rw [add_multiple_series_eq env refs a (some k) options hv]
      by_cases hlen : (addClassify env options refs).1.length > 0
      · rw [if_pos hlen]
        simp only [Option.getD_some]
      · rw [if_neg hlen]
        have hnil : (addClassify env options refs).1 = [] := by
          cases hc : (addClassify env options refs).1 with
          | nil => rfl
          | cons x xs => rw [hc] at hlen; simp at hlen
        rw [hnil, chunks_nil]
        simp
    · rw [add_multiple_series_eq env refs a none options hv]
      by_cases hlen : (addClassify env options refs).1.length > 0
      · rw [if_pos hlen]
        have hnil : (addClassify env options refs).1 ≠ [] := by
          intro h0
          rw [h0] at hlen
          simp at hlen
        rw [if_neg hnil, if_neg hnil]
        simp only [Option.getD_none]
        rw [chunks_self _ hnil]
        simp
      · rw [if_neg hlen]
        have hnil : (addClassify env options refs).1 = [] := by
          cases hc : (addClassify env options refs).1 with
          | nil => rfl
          | cons x xs => rw [hc] at hlen; simp at hlen
        rw [hnil]
        simp
  · intro json hv
    rw [edit_multiple_series_eq env refs i (some k) json hv]
    by_cases hlen : (_validate_tvdb_ids env.catalog refs).1.length > 0
    · rw [if_pos hlen]
      simp only [Option.getD_some]
    · rw [if_neg hlen]
      have hnil : (_validate_tvdb_ids env.catalog refs).1 = [] := by
        cases hc : (_validate_tvdb_ids env.catalog refs).1 with
        | nil => rfl
        | cons x xs => rw [hc] at hlen; simp at hlen
      rw [hnil, chunks_nil]
      cases json.monitor <;> simp
  · by_cases hlen : (_validate_tvdb_ids env.catalog refs).1.length > 0
    · simp [delete_multiple_series, hlen, sliceCalls_eq_chunks_map]
    · have hnil : (_validate_tvdb_ids env.catalog refs).1 = [] := by
        cases hc : (_validate_tvdb_ids env.catalog refs).1 with
        | nil => rfl
        | cons x xs => rw [hc] at hlen; simp at hlen
      simp [delete_multiple_series, hlen, hnil, chunks_nil]

/-- Claim C7: an input TVDb id that resolves nowhere (not in the remote
catalog and not resolvable by lookup, e.g. `999`) is returned in the
not-found bucket, and no import payload carrying that id is ever sent to
the remote; the mutating call trace contains no request built from it.
(The guarantee is stated for inputs that do not also pass a pre-fetched
Series object carrying the same TVDb id, which would be queued on its
own.) -/
theorem unresolvable_id_not_found (env : Env) (refs : List SeriesRef) (a : AddInput)
    (pr : Option Nat) (t : Nat)
    (h1 : inCatalog env.catalog t = false)
    (h2 : t ∉ env.lookupable)
    (h3 : SeriesRef.rawId t ∈ refs)
    (h4 : ∀ s : SeriesEntry, SeriesRef.obj s ∈ refs → s.tvdbId ≠ t)
    (options : AddOptions) (hv : _validate_add_options env a = .ok options) :
    t ∈ (addClassify env options refs).2.2 ∧
    (∃ series, (add_multiple_series env refs a pr).1
        = .ok (series, (addClassify env options refs).2.1,
               (addClassify env options refs).2.2)) ∧
    (∀ payload, Call.importReq payload ∈ (add_multiple_series env refs a pr).2 →
      ∀ p ∈ payload, p.1 ≠ t) := by
  obtain ⟨hq, hex, hnf⟩ := addClassify_spec env options refs
  have houtcome : addOutcome env (SeriesRef.rawId t) = AddOutcome.notFound := by
    simp [addOutcome, h1, h2]
  refine ⟨?_, add_multiple_series_ok env refs a pr options hv, ?_⟩
  · rw [hnf]
    exact List.mem_map.mpr ⟨SeriesRef.rawId t,
      List.mem_filter.mpr ⟨h3, by simp [houtcome]⟩, rfl⟩
  · intro payload hp p hpmem
    rw [add_multiple_series_eq env refs a pr options hv] at hp
    split at hp
    · obtain ⟨c, hc, hceq⟩ := List.mem_map.mp hp
      injection hceq with hceq
      subst hceq
      have hpj : p ∈ (addClassify env options refs).1 :=
        chunks_subset _ _ hc _ hpmem
      rw [hq] at hpj
      obtain ⟨r, hr, hre⟩ := List.mem_map.mp hpj
      obtain ⟨hrmem, hrq⟩ := List.mem_filter.mp hr
      intro hcontra
      cases r with
      | rawId t2 =>
        have ht2 : t2 = t := by
          rw [← hre] at hcontra
          simpa [refTvdb] using hcontra
        subst ht2
        rw [houtcome] at hrq
        simp at hrq
      | obj s =>
        have hst : s.tvdbId = t := by
          rw [← hre] at hcontra
          simpa [refTvdb] using hcontra
        exact h4 s hrmem hst
    · simp at hp

/-- Claim C4 (amended): `_validate_edit_options` raises `ValueError` when
all nine editable fields are `None`; called with exactly one field
non-`None` (and that field valid) it succeeds with a map holding only that
field's translated key plus the always-present `moveFiles` flag — except
for `tags`, whose presence additionally emits the `applyTags` key. -/
theorem edit_options_single_field (env : Env) :
    (_validate_edit_options env {} = .error (.valueError editAllNoneMsg)) ∧
    (∀ r v, _validate_root_folder env r = .ok v →
      Except.map (editOptionsKeys env.v3)
          (_validate_edit_options env { root_folder := some r })
        = .ok ["moveFiles", "rootFolderPath"]) ∧
    (∀ s : String,
      Except.map (editOptionsKeys env.v3) (_validate_edit_options env { path := some s })
        = .ok ["moveFiles", "path"]) ∧
    (∀ r v, _validate_quality_profile env r = .ok v →
      Except.map (editOptionsKeys env.v3)
          (_validate_edit_options env { quality_profile := some r })
        = .ok ["moveFiles", if env.v3 then "qualityProfileId" else "profileId"]) ∧
    (∀ r v, _validate_language_profile env.languageProfiles r = .ok v →
      Except.map (editOptionsKeys env.v3)
          (_validate_edit_options env { language_profile := some r })
        = .ok ["moveFiles", "languageProfileId"]) ∧
    (∀ m, m ∈ monitor_options →
      Except.map (editOptionsKeys env.v3) (_validate_edit_options env { monitor := some m })
        = .ok ["moveFiles", "monitor"]) ∧
    (∀ b : Bool,
      Except.map (editOptionsKeys env.v3) (_validate_edit_options env { monitored := some b })
        = .ok ["moveFiles", "monitored"]) ∧
    (∀ b : Bool,
      Except.map (editOptionsKeys env.v3)
          (_validate_edit_options env { season_folder := some b })
        = .ok ["moveFiles", "seasonFolder"]) ∧
    (∀ st, st ∈ series_type_options →
      Except.map (editOptionsKeys env.v3)
          (_validate_edit_options env { series_type := some st })
        = .ok ["moveFiles", "seriesType"]) ∧
    (∀ ts v, resolveTags env.tags true ts = .ok v →
      Except.map (editOptionsKeys env.v3) (_validate_edit_options env { tags := some ts })
        = .ok ["moveFiles", "tags", "applyTags"]) := by
  refine ⟨rfl, ?_, ?_, ?_, ?_, ?_, ?_, ?_, ?_, ?_⟩
  · intro r v hv
    simp [_validate_edit_options, edit_fields_none, optValidate, hv, editTagsFields,
      Except.bind, Except.map, editOptionsKeys]
  · intro s
    simp [_validate_edit_options, edit_fields_none, optValidate, editTagsFields,
      Except.bind, Except.map, editOptionsKeys]
  · intro r v hv
    simp [_validate_edit_options, edit_fields_none, optValidate, hv, editTagsFields,
      Except.bind, Except.map, editOptionsKeys]
  · intro r v hv
    simp [_validate_edit_options, edit_fields_none, optValidate, hv, editTagsFields,
      Except.bind, Except.map, editOptionsKeys]
  · intro m hm
    simp [_validate_edit_options, edit_fields_none, optValidate, _validate_monitor,
      validate_options, hm, editTagsFields, Except.bind, Except.map, editOptionsKeys]
  · intro b
    simp [_validate_edit_options, edit_fields_none, optValidate, editTagsFields,
      Except.bind, Except.map, editOptionsKeys]
  · intro b
    simp [_validate_edit_options, edit_fields_none, optValidate, editTagsFields,
      Except.bind, Except.map, editOptionsKeys]
  · intro st hst
    simp [_validate_edit_options, edit_fields_none, optValidate, _validate_series_type,
      validate_options, hst, editTagsFields, Except.bind, Except.map, editOptionsKeys]
  · intro ts v htv
    have hb : ("add" != "remove") = true := by decide
    have hmem : "add" ∈ apply_tags_options := by decide
    simp [_validate_edit_options, edit_fields_none, optValidate, editTagsFields, hb, htv,
      hmem, Except.bind, Except.map, editOptionsKeys]

theorem pairwise_name_inj {l : List LanguageProfile}
    (h : l.Pairwise (fun q1 q2 => q1.name ≠ q2.name)) {p q : LanguageProfile}
    (hp : p ∈ l) (hq : q ∈ l) (hn : p.name = q.name) : p = q := by
  induction l with
  | nil => cases hp
  | cons a tl ih =>
    obtain ⟨ha, ht⟩ := List.pairwise_cons.mp h
    rcases List.mem_cons.mp hp with hp1 | hp1 <;> rcases List.mem_cons.mp hq with hq1 | hq1
    · rw [hp1, hq1]
    · subst hp1
      exact absurd hn (ha q hq1)
    · subst hq1
      exact absurd hn.symm (ha p hp1)
    · exact ih ht hp1 hq1

/-- Claim C9 (amended): provided the fetched language profiles carry
pairwise distinct names, a profile present in the list resolves to its own
canonical id whether referenced by name, by integer id, or by the resolved
object; a candidate matching no fetched profile raises `Invalid` carrying
the rendered candidate and the option list. -/
theorem language_profile_roundtrip (profiles : List LanguageProfile)
    (p : LanguageProfile)
    (hnames : profiles.Pairwise (fun q1 q2 => q1.name ≠ q2.name))
    (hp : p ∈ profiles) (ref : ProfileRef) :
    _validate_language_profile profiles (.byName p.name) = .ok p.id ∧
    _validate_language_profile profiles (.byId p.id) = .ok p.id ∧
    _validate_language_profile profiles (.byObj p.id p.name) = .ok p.id ∧
    ((∀ q ∈ profiles, lpMatches q ref = false) →
      _validate_language_profile profiles ref
        = .error (.invalid ref.render (profiles.map LanguageProfile.render))) := by
  refine ⟨?_, ?_, ?_, ?_⟩
  · unfold _validate_language_profile
    cases hf : profiles.find? (fun q => lpMatches q (.byName p.name)) with
    | none =>
      exfalso
      have hnone := List.find?_eq_none.mp hf p hp
      simp [lpMatches] at hnone
    | some q =>
      have hqm : q ∈ profiles := List.mem_of_find?_eq_some hf
      have hq := List.find?_some hf
      simp only [lpMatches, beq_iff_eq] at hq
      have hpq : p = q := pairwise_name_inj hnames hp hqm hq.symm
      simp [hpq]
  · unfold _validate_language_profile
    cases hf : profiles.find? (fun q => lpMatches q (.byId p.id)) with
    | none =>
      exfalso
      have hnone := List.find?_eq_none.mp hf p hp
      simp [lpMatches] at hnone
    | some q =>
      have hq := List.find?_some hf
      simp only [lpMatches, beq_iff_eq] at hq
      simp [hq]
  · unfold _validate_language_profile
    cases hf : profiles.find? (fun q => lpMatches q (.byObj p.id p.name)) with
    | none =>
      exfalso
      have hnone := List.find?_eq_none.mp hf p hp
      simp [lpMatches] at hnone
    | some q =>
      have hq := List.find?_some hf
      simp only [lpMatches, beq_iff_eq] at hq
      simp [hq]
  · intro hall
    unfold _validate_language_profile
    have hf : profiles.find? (fun q => lpMatches q ref) = none :=
      List.find?_eq_none.mpr (fun x hx => by simp [hall x hx])
    rw [hf]

/-- Claim C4 counterexample: calling `_validate_edit_options` with exactly
one non-`None` field, `tags`, succeeds but emits the `applyTags` key in
addition to `tags` and `moveFiles`: the returned map does not contain only
the supplied field's translated key plus the `moveFiles` flag. -/
theorem edit_options_tags_extra_key :
    Except.map (editOptionsKeys envW.v3)
        (_validate_edit_options envW { tags := some [ProfileRef.byId 1] })
      = .ok ["moveFiles", "tags", "applyTags"] ∧
    ¬ Except.map (editOptionsKeys envW.v3)
        (_validate_edit_options envW { tags := some [ProfileRef.byId 1] })
      = .ok ["moveFiles", "tags"] := by
  constructor
  · rfl
  · intro h
    have h2 : (Except.ok ["moveFiles", "tags", "applyTags"] : Except ArrError (List String))
        = .ok ["moveFiles", "tags"] := h
    injection h2 with h3
    simp at h3

theorem edit_options_single_field_witness :
    Except.map (editOptionsKeys envW.v3)
        (_validate_edit_options envW { monitor := some "all" })
      = .ok ["moveFiles", "monitor"] :=
  (edit_options_single_field envW).2.2.2.2.2.1 "all" (by decide)

/-- Claim C9 counterexample: with two fetched profiles sharing the name
`dup`, the profile `⟨2, dup⟩` is in the fetched list, yet resolving it by
name yields canonical id 1 while resolving it by id or by object yields 2:
the three reference forms do not produce the identical canonical id. -/
theorem language_profile_roundtrip_fails :
    (⟨2, "dup"⟩ : LanguageProfile) ∈ ([⟨1, "dup"⟩, ⟨2, "dup"⟩] : List LanguageProfile) ∧
    _validate_language_profile [⟨1, "dup"⟩, ⟨2, "dup"⟩] (.byName "dup") = .ok 1 ∧
    _validate_language_profile [⟨1, "dup"⟩, ⟨2, "dup"⟩] (.byId 2) = .ok 2 ∧
    _validate_language_profile [⟨1, "dup"⟩, ⟨2, "dup"⟩] (.byObj 2 "dup") = .ok 2 ∧
    _validate_language_profile [⟨1, "dup"⟩, ⟨2, "dup"⟩] (.byName "dup")
      ≠ _validate_language_profile [⟨1, "dup"⟩, ⟨2, "dup"⟩] (.byId 2) := by
  refine ⟨by decide, rfl, rfl, rfl, ?_⟩
  intro h
  have h2 : (Except.ok 1 : Except ArrError Nat) = .ok 2 := h
  injection h2 with h3
  simp at h3

theorem language_profile_roundtrip_witness :
    _validate_language_profile envW.languageProfiles (.byName "fr") = .ok 2 ∧
    _validate_language_profile envW.languageProfiles (.byId 2) = .ok 2 ∧
    _validate_language_profile envW.languageProfiles (.byObj 2 "fr") = .ok 2 ∧
    _validate_language_profile envW.languageProfiles (.byName "de")
      = .error (.invalid "de" ["en", "fr"]) := by
  have h := language_profile_roundtrip envW.languageProfiles ⟨2, "fr"⟩
    (by decide) (by decide) (.byName "de")
  exact ⟨h.1, h.2.1, h.2.2.1, h.2.2.2 (by decide)⟩

theorem bulk_batching_witness :
    (chunks 2 ([1, 2, 3] : List Nat)).length = 2 ∧
    delete_multiple_series envW refsW false false (some 2)
      = ([2, 999], [Call.deleteEditorReq false false [10]]) := by
  have h := bulk_batching 2 (by decide) ([1, 2, 3] : List Nat) envW refsW aW iW false false
  constructor
  · rw [h.1]
    decide
  · rw [h.2.2.2.2.2.2.2]
    have hvi : _validate_tvdb_ids envW.catalog refsW = ([10], [2, 999]) := rfl
    rw [hvi]
    simp [chunks_cons, chunks_nil]

theorem monitor_phase_before_editor_phase_witness :
    (edit_multiple_series envW [SeriesRef.rawId 1] iW none).2 =
      [_edit_series_monitoring [10] "all",
       Call.editorReq { jsonW with monitor := none } [10]] := by
  have h := monitor_phase_before_editor_phase envW [SeriesRef.rawId 1] iW none jsonW "all"
    rfl rfl (by decide)
  rw [h]
  have hvi : _validate_tvdb_ids envW.catalog [SeriesRef.rawId 1] = ([10], []) := rfl
  rw [hvi]
  simp [chunks_cons, chunks_nil]

theorem add_multiple_series_outcomes_witness :
    (ArrError.invalid "99" ["rootA"]).validationOnly = true ∧
    (addClassify envW optionsW refsW).1.length + (addClassify envW optionsW refsW).2.1.length
      + (addClassify envW optionsW refsW).2.2.length = refsW.length :=
  ⟨(add_multiple_series_outcomes envW refsW aBad none).1 (ArrError.invalid "99" ["rootA"]) rfl,
   ((add_multiple_series_outcomes envW refsW aW none).2 optionsW rfl).2.2.2.2⟩

theorem bulk_calls_fail_fast_witness :
    add_multiple_series envW refsW aBad none = (.error (.invalid "99" ["rootA"]), []) ∧
    edit_multiple_series envW refsW {} none = (.error (.valueError editAllNoneMsg), []) :=
  ⟨(bulk_calls_fail_fast envW refsW aBad {} none (.invalid "99" ["rootA"])).1 rfl,
   (bulk_calls_fail_fast envW refsW aBad {} none (.valueError editAllNoneMsg)).2 rfl⟩

theorem unresolvable_id_not_found_witness :
    999 ∈ (addClassify envW optionsW refsW).2.2 :=
  (unresolvable_id_not_found envW refsW aW none 999 rfl (by decide) (by decide)
    (by intro s hs; simp [refsW] at hs) optionsW rfl).1

theorem edit_no_resolved_fail_fast_witness :
    edit_multiple_series envW [SeriesRef.rawId 999] iW none = (.ok ([], [999]), []) :=
  edit_no_resolved_fail_fast envW [SeriesRef.rawId 999] iW none jsonW rfl rfl

theorem editor_payloads_monitor_free_witness :
    ({ jsonW with monitor := none } : EditOptions).monitor = none ∧
    "monitor" ∉ editOptionsKeys envW.v3 ({ jsonW with monitor := none } : EditOptions) := by
  have hvi : _validate_tvdb_ids envW.catalog [SeriesRef.rawId 1] = ([10], []) := rfl
  have htr : (edit_multiple_series envW [SeriesRef.rawId 1] iW none).2 =
      [_edit_series_monitoring [10] "all",
       Call.editorReq { jsonW with monitor := none } [10]] := by
    rw [edit_multiple_series_eq envW [SeriesRef.rawId 1] iW none jsonW rfl]
    rw [hvi]
    simp [jsonW, chunks_cons, chunks_nil]
  exact (editor_payloads_monitor_free envW [SeriesRef.rawId 1] iW none).1
    { jsonW with monitor := none } [10] (by rw [htr]; simp)
